import Mathlib

/-!
Verification of the event-registration engine and the quiz scoring &
integrity engine of the aidevcommunity backend.

The definitions below are a shallow embedding of the TypeScript
controllers (`src/controllers/quiz.controller.ts`,
`src/controllers/event.controller.ts`).  JavaScript numbers are modelled
as exact rationals (`ℚ`), `Math.round` as `jsRound` (floor of `q + 1/2`,
matching JS round-half-up), and JS truthiness of optional strings by
`jsTruthyStr` (null / empty string are falsy).  Fallible request
handlers become functions returning an `Except` result paired with the
(possibly updated) store, so the early-return error paths visibly leave
the store unchanged.
-/

namespace AidevBackend

/-- JS `Math.round`: rounds half toward positive infinity. -/
def jsRound (q : ℚ) : ℤ := ⌊q + 1/2⌋

/-- JS truthiness of an optional string: `null`/`undefined` and `""` are falsy. -/
def jsTruthyStr : Option String → Bool
  | none => false
  | some s => !(s == "")

/-! ## Quiz scoring (`submitQuizAnswers`, scoring section) -/

/-- One option of a quiz question, as stored in the question's JSON
`options` array: an id and an `isCorrect` flag. -/
structure QOption where
  oid : String
  isCorrect : Bool
deriving Repr, DecidableEq

/-- A quiz question: id, options, point value. -/
structure QuizQuestion where
  qid : String
  options : List QOption
  points : ℤ
deriving Repr, DecidableEq

/-- Per-answer scoring from `submitQuizAnswers`:
`options.find(opt => opt.id === answer.selectedOption)`,
`isCorrect = selectedOption?.isCorrect || false`; if correct,
`timeSpent = Math.min(answer.timeSpent, quiz.timeLimit*1000)`,
`timeBonus = 1 - (timeSpent / timeLimit) * 0.5`,
`pointsEarned = Math.round(maxPoints * timeBonus)`; else 0. -/
def scoreAnswer (question : QuizQuestion) (selectedOption : String)
    (timeSpentMs : ℚ) (timeLimitSeconds : ℚ) : ℤ :=
  let found := question.options.find? (fun o => o.oid == selectedOption)
  let isCorrect := (found.map QOption.isCorrect).getD false
  if isCorrect then
    let timeLimit := timeLimitSeconds * 1000
    let timeSpent := min timeSpentMs timeLimit
    let timeBonus := 1 - (timeSpent / timeLimit) * (1/2)
    jsRound ((question.points : ℚ) * timeBonus)
  else 0

/-- A concrete question used by the spec's worked examples: 1000 points,
option "a" correct, option "b" incorrect. -/
def sampleQ : QuizQuestion :=
  { qid := "q1", options := [⟨"a", true⟩, ⟨"b", false⟩], points := 1000 }

/-! ## Anti-cheat integrity engine (`submitQuizAnswers`, detection section)

The nine heuristics operate on the list of per-answer `timeSpent` values
(`ts`) and the request-supplied integrity signals.  The mean and the
population variance follow the source's
`answers.reduce(...) / answers.length` computations; they are exact
rationals here.  On an empty answer list the source produces `NaN`
(0/0); all theorems about the heuristics therefore assume `ts ≠ []`. -/

/-- `avgTimePerQuestion`: sum of `timeSpent` divided by the number of answers. -/
def listMean (ts : List ℚ) : ℚ := ts.sum / ts.length

/-- Population variance of the `timeSpent` values, as in the source's
`answers.reduce((sum, ans) => sum + Math.pow(ans.timeSpent - mean, 2), 0) / answers.length`. -/
def popVariance (ts : List ℚ) : ℚ :=
  (ts.map (fun t => (t - listMean ts) ^ 2)).sum / ts.length

/-- `mediumDelayAnswers`: answers with `timeSpent >= 5000 && timeSpent <= 20000`. -/
def mediumDelayCount (ts : List ℚ) : ℕ :=
  (ts.filter (fun t => decide (5000 ≤ t ∧ t ≤ 20000))).length

/-- Heuristic rule 5 ("phone cheating detection"):
`consistentTimingPattern && coefficientOfVariation < 0.3 && avgTimePerQuestion > 5000`.
The source's middle conjunct divides a square root; to keep the test
decidable it is rendered here by the square-free equivalent
`100 * variance < 9 * mean^2`, and `rule5_cv_iff` below proves this
agrees with the source's `sqrt(variance)/mean < 0.3` conjunction
unconditionally (both forms also require `mean > 5000 > 0`). -/
def rule5 (ts : List ℚ) : Bool :=
  decide ((mediumDelayCount ts : ℚ) > (ts.length : ℚ) * (7/10)) &&
  decide (100 * popVariance ts < 9 * (listMean ts) ^ 2) &&
  decide (listMean ts > 5000)

/-- The request-level integrity signals accompanying a submission. -/
structure IntegritySignals where
  tabSwitches : ℤ
  afkIncidents : ℤ
  screenshotAttempts : ℤ
  detectedExtensions : List String
  inactivityPeriods : List ℚ
deriving Repr, DecidableEq

/-- The anti-cheat detection block of `submitQuizAnswers`: returns the
accumulated `suspiciousActivities` strings (in source push order) and
the final `isFlagged` bit. -/
def integrityCheck (sig : IntegritySignals) (ts : List ℚ) : List String × Bool :=
  let n := ts.length
  let avg := listMean ts
  let s1 := if 3 < sig.tabSwitches then
    ["Switched tabs " ++ toString sig.tabSwitches ++ " times"] else []
  let f1 := decide (3 < sig.tabSwitches)
  let s2 := if avg < 2000 then
    ["Answered too fast (avg " ++ toString (jsRound avg) ++ "ms per question)"] else []
  let f2 := decide (avg < 2000)
  let tooFastAnswers := (ts.filter (fun t => decide (t < 1000))).length
  let s3 := if (tooFastAnswers : ℚ) > (n : ℚ) * (1/2) then
    [toString tooFastAnswers ++ " answers submitted in less than 1 second"] else []
  let f3 := decide ((tooFastAnswers : ℚ) > (n : ℚ) * (1/2))
  let s4 := if 2 < sig.afkIncidents then
    [toString sig.afkIncidents ++ " AFK incidents detected (extended periods without activity)"] else []
  let f4 := decide (2 < sig.afkIncidents)
  let s5 := if rule5 ts then
    ["Suspicious timing pattern detected (consistent " ++ toString (jsRound (avg / 1000)) ++
      "s delays suggest external device usage)"] else []
  let f5 := rule5 ts
  let veryLongAnswers := (ts.filter (fun t => decide (30000 < t))).length
  let s6 := if 2 < veryLongAnswers then
    [toString veryLongAnswers ++ " questions took more than 30 seconds (possible research time)"] else []
  let f6 := decide (2 < veryLongAnswers)
  let longInactivity := (sig.inactivityPeriods.filter (fun d => decide (15000 < d))).length
  let s7 := if 0 < sig.inactivityPeriods.length ∧ 1 < longInactivity then
    [toString longInactivity ++ " extended inactivity periods detected (possible phone usage or distraction)"] else []
  let f7 := decide (0 < sig.inactivityPeriods.length ∧ 1 < longInactivity ∧ 3 < longInactivity)
  let s8 := if 0 < sig.screenshotAttempts then
    [toString sig.screenshotAttempts ++ " screenshot attempt(s) detected and blocked"] else []
  let f8 := decide (0 < sig.screenshotAttempts ∧ 2 < sig.screenshotAttempts)
  let s9 := if 0 < sig.detectedExtensions.length then
    ["Suspicious browser extensions detected: " ++ String.intercalate ", " sig.detectedExtensions] else []
  let f9 := decide (0 < sig.detectedExtensions.length)
  (s1 ++ s2 ++ s3 ++ s4 ++ s5 ++ s6 ++ s7 ++ s8 ++ s9,
   f1 || f2 || f3 || f4 || f5 || f6 || f7 || f8 || f9)

/-- A submission with no auxiliary integrity signals. -/
def noSignals : IntegritySignals :=
  { tabSwitches := 0, afkIncidents := 0, screenshotAttempts := 0,
    detectedExtensions := [], inactivityPeriods := [] }

/-! ## Penalty (`reduceParticipantPoints`) -/

/-- The persisted part of a quiz attempt that `reduceParticipantPoints`
reads and writes. -/
structure AttemptRec where
  totalScore : ℤ
  isFlagged : Bool
  flagReason : Option String
deriving Repr, DecidableEq

/-- Errors of the two engines, per the spec's taxonomy. -/
inductive EngineError
  | NotFound
  | CapacityExceeded
  | AlreadyRegistered
  | NotEligible
  | AlreadyCheckedIn
  | InvalidState
  | InvalidInput
deriving Repr, DecidableEq

/-- `reduceParticipantPoints` on an existing attempt:
`!pointsToReduce || pointsToReduce <= 0` rejects with 400 (`InvalidInput`);
otherwise `newScore = Math.max(0, attempt.totalScore - pointsToReduce)`,
the `PENALTY:` annotation is appended to `flagReason` with a `"; "`
separator (created fresh when `flagReason` is falsy), and `isFlagged`
is forced to `true`.  A falsy `reason` is replaced by the default text. -/
def reduceParticipantPoints (attempt : AttemptRec) (pointsToReduce : ℤ)
    (reason : Option String) : Except EngineError Unit × AttemptRec :=
  if pointsToReduce ≤ 0 then (.error .InvalidInput, attempt)
  else
    let newScore := max 0 (attempt.totalScore - pointsToReduce)
    let reductionReason :=
      if jsTruthyStr reason then reason.getD "" else "Points reduced due to cheating detection"
    let penalty := "PENALTY: " ++ toString pointsToReduce ++ " points reduced - " ++ reductionReason
    let newReason :=
      if jsTruthyStr attempt.flagReason then (attempt.flagReason.getD "") ++ "; " ++ penalty
      else penalty
    (.ok (), { totalScore := newScore, isFlagged := true, flagReason := some newReason })

/-! ## Leaderboards (`getQuizLeaderboard`, `getMonthlyLeaderboard`)

`getQuizLeaderboard` fetches the quiz's attempts ordered by
`totalScore` descending (no secondary sort key) and capped at 50, then
assigns `rank: index + 1`.  `getMonthlyLeaderboard` fetches the month's
attempts in unspecified storage order, groups them by user in first-seen
order while summing scores, sorts by total descending with JS's stable
`Array.prototype.sort`, slices to 50 and assigns `rank: index + 1`.
Both are modelled as functions of the storage-order list of rows; the
score-descending ordering is rendered as a stable insertion sort, so
rows with equal scores keep their storage order. -/

/-- A stored quiz attempt row as the leaderboards see it
(`completedAt` exists on the row but is never consulted by either
leaderboard's ordering). -/
structure AttemptRow where
  userId : ℕ
  totalScore : ℤ
  completedAt : ℚ
deriving Repr, DecidableEq

/-- Stable descending insertion by score: an incoming row goes after
every row whose score is at least as large. -/
def insertDesc (x : ℕ × ℤ) : List (ℕ × ℤ) → List (ℕ × ℤ)
  | [] => [x]
  | y :: ys => if x.2 ≤ y.2 then y :: insertDesc x ys else x :: y :: ys

/-- Stable sort by score descending (ties keep input order), as JS's
stable `sort((a, b) => b.totalScore - a.totalScore)`; for the per-quiz
leaderboard it stands for the storage's `orderBy totalScore desc`,
whose tie order the storage does not fix. -/
def sortByScoreDesc (l : List (ℕ × ℤ)) : List (ℕ × ℤ) :=
  l.foldl (fun acc x => insertDesc x acc) []

/-- Positional 1-based ranks: entry at sorted position `i` (0-based)
gets `rank = i + 1`. -/
def assignRanks : ℕ → List (ℕ × ℤ) → List (ℕ × ℤ × ℕ)
  | _, [] => []
  | i, x :: xs => (x.1, x.2, i + 1) :: assignRanks (i + 1) xs

/-- `getQuizLeaderboard`: attempts ordered by score descending, top 50,
`rank = index + 1`.  Each row is one user's single attempt. -/
def quizLeaderboard (rows : List AttemptRow) : List (ℕ × ℤ × ℕ) :=
  assignRanks 0 ((sortByScoreDesc (rows.map (fun r => (r.userId, r.totalScore)))).take 50)

/-- One step of `getMonthlyLeaderboard`'s `reduce`: add one attempt to
the per-user accumulator (`acc[userId].totalScore += attempt.totalScore`,
creating the bucket on first sight). -/
def groupStep (acc : List (ℕ × ℤ)) (r : AttemptRow) : List (ℕ × ℤ) :=
  if acc.any (fun p => p.1 == r.userId) then
    acc.map (fun p => if p.1 == r.userId then (p.1, p.2 + r.totalScore) else p)
  else acc ++ [(r.userId, r.totalScore)]

/-- The grouping step of `getMonthlyLeaderboard`: fold the month's
attempts into per-user accumulated totals, keyed in first-seen order. -/
def groupScores (rows : List AttemptRow) : List (ℕ × ℤ) :=
  rows.foldl groupStep []

/-- `getMonthlyLeaderboard`: group by user summing scores, sort by total
descending (stable), top 50, `rank = index + 1`. -/
def monthlyLeaderboard (rows : List AttemptRow) : List (ℕ × ℤ × ℕ) :=
  assignRanks 0 ((sortByScoreDesc (groupScores rows)).take 50)

/-! ## Registration engine (`event.controller.ts`) -/

/-- Registration lifecycle status. -/
inductive RegStatus
  | REGISTERED
  | PENDING
  | CONFIRMED
  | REJECTED
  | CANCELLED
  | WAITLIST
deriving Repr, DecidableEq

/-- A registration row. -/
structure Registration where
  rid : ℕ
  eventId : ℕ
  userId : ℕ
  qrToken : String
  status : RegStatus
  checkedInAt : Option ℚ
  reviewedBy : Option ℕ
  reviewedAt : Option ℚ
  reviewComment : Option String
deriving Repr, DecidableEq

/-- An event row (the fields `registerForEvent` consults). -/
structure Event where
  eid : ℕ
  capacity : ℤ
  requiresApproval : Bool
  eligibleLevels : Option (List String)
  eligiblePrograms : Option (List String)
deriving Repr, DecidableEq

/-- A user row (the fields the eligibility check consults). -/
structure User where
  uid : ℕ
  studyLevel : Option String
  studyProgram : Option String
deriving Repr, DecidableEq

/-- The relational store as the controllers see it. -/
structure Store where
  events : List Event
  users : List User
  registrations : List Registration
deriving Repr, DecidableEq

/-- `_count.registrations` of the fetched event: the number of ALL
registration rows referencing the event, with no status filter. -/
def countRegistrations (st : Store) (eventId : ℕ) : ℕ :=
  (st.registrations.filter (fun r => r.eventId == eventId)).length

/-- One step of the eligibility computation, mirroring
`if (list && list.length > 0) isEligible = isEligible && user?.attr ? list.includes(user.attr) : false`
(JS precedence: the ternary condition is `isEligible && user?.attr`,
where a missing or empty-string attribute is falsy). -/
def stepEligible (isEligible : Bool) (restriction : Option (List String))
    (attr : Option String) : Bool :=
  match restriction with
  | none => isEligible
  | some ls =>
    if 0 < ls.length then
      (if isEligible && jsTruthyStr attr then ls.contains (attr.getD "") else false)
    else isEligible

/-- The full eligibility check of `registerForEvent` (levels first, then
programs), evaluated only when `event.requiresApproval`. -/
def eligibility (event : Event) (user : Option User) : Bool :=
  stepEligible
    (stepEligible true event.eligibleLevels (user.bind User.studyLevel))
    event.eligiblePrograms (user.bind User.studyProgram)

/-- `registerForEvent`: event lookup, capacity check against the count
of all registrations, duplicate check on (event, user), eligibility
check when approval is required, then creation of a registration with a
fresh token and status `PENDING`/`REGISTERED`.  `freshId`/`freshToken`
stand for the generated row id and `uuidv4()` token. -/
def registerForEvent (st : Store) (eventId userId : ℕ)
    (freshId : ℕ) (freshToken : String) : Except EngineError Registration × Store :=
  match st.events.find? (fun e => e.eid == eventId) with
  | none => (.error .NotFound, st)
  | some event =>
    if (countRegistrations st eventId : ℤ) ≥ event.capacity then
      (.error .CapacityExceeded, st)
    else
      match st.registrations.find? (fun r => r.eventId == eventId && r.userId == userId) with
      | some _ => (.error .AlreadyRegistered, st)
      | none =>
        let user := st.users.find? (fun u => u.uid == userId)
        if event.requiresApproval && !eligibility event user then
          (.error .NotEligible, st)
        else
          let reg : Registration :=
            { rid := freshId, eventId := eventId, userId := userId,
              qrToken := freshToken,
              status := if event.requiresApproval then .PENDING else .REGISTERED,
              checkedInAt := none, reviewedBy := none, reviewedAt := none,
              reviewComment := none }
          (.ok reg, { st with registrations := st.registrations ++ [reg] })

/-- Replace-by-id update used by the `prisma.registration.update`
calls: map the row with the given id to its new value. -/
def replaceReg (l : List Registration) (rid : ℕ) (reg2 : Registration) : List Registration :=
  l.map (fun r => if r.rid == rid then reg2 else r)

/-- `checkIn`: find the registration by `(eventId, qrToken)`; 404 when
absent; 400 `Already checked in` when `checkedInAt` is set (a `Date` is
always truthy); otherwise stamp `checkedInAt = now`.  The registration's
`status` is never consulted. -/
def checkIn (st : Store) (eventId : ℕ) (qrToken : String) (now : ℚ) :
    Except EngineError Registration × Store :=
  match st.registrations.find? (fun r => r.eventId == eventId && r.qrToken == qrToken) with
  | none => (.error .NotFound, st)
  | some reg =>
    match reg.checkedInAt with
    | some _ => (.error .AlreadyCheckedIn, st)
    | none =>
      let reg2 := { reg with checkedInAt := some now }
      (.ok reg2, { st with registrations := replaceReg st.registrations reg.rid reg2 })

/-- `approveRegistration`: the registration must exist and be `PENDING`;
on success it becomes `CONFIRMED` with reviewer identity, timestamp and
comment recorded. -/
def approveRegistration (st : Store) (rid reviewerId : ℕ) (now : ℚ)
    (comment : Option String) : Except EngineError Registration × Store :=
  match st.registrations.find? (fun r => r.rid == rid) with
  | none => (.error .NotFound, st)
  | some reg =>
    if reg.status ≠ .PENDING then (.error .InvalidState, st)
    else
      let reg2 := { reg with
        status := RegStatus.CONFIRMED
        reviewedBy := some reviewerId
        reviewedAt := some now
        reviewComment := comment }
      (.ok reg2, { st with registrations := replaceReg st.registrations rid reg2 })

/-- `rejectRegistration`: same guard as approval; on success the status
becomes `REJECTED` with the review metadata recorded. -/
def rejectRegistration (st : Store) (rid reviewerId : ℕ) (now : ℚ)
    (reason : Option String) : Except EngineError Registration × Store :=
  match st.registrations.find? (fun r => r.rid == rid) with
  | none => (.error .NotFound, st)
  | some reg =>
    if reg.status ≠ .PENDING then (.error .InvalidState, st)
    else
      let reg2 := { reg with
        status := RegStatus.REJECTED
        reviewedBy := some reviewerId
        reviewedAt := some now
        reviewComment := reason }
      (.ok reg2, { st with registrations := replaceReg st.registrations rid reg2 })

end AidevBackend

namespace AidevBackend

/-! ## Shared helper lemmas -/

theorem jsRound_mono {a b : ℚ} (h : a ≤ b) : jsRound a ≤ jsRound b := by
  unfold jsRound
  exact Int.floor_le_floor (by linarith)

theorem jsRound_intCast (z : ℤ) : jsRound (z : ℚ) = z := by
  unfold jsRound
  rw [add_comm, Int.floor_add_int]
  norm_num

/-! ## C1 -/

/-- C1: Per-answer scoring returns
`round(points * (1 - (min(timeSpentMs, timeLimitSeconds*1000) / (timeLimitSeconds*1000)) * 0.5))`
when the selected option is marked correct, and 0 when the selected
option is marked incorrect or matches no option (no error); a correct
answer at `timeSpentMs = 0` on a 1000-point question with a 30 s limit
earns 1000 points, and at `timeSpentMs = 30000` earns 500. -/
theorem C1_per_answer_scoring :
    (∀ (q : QuizQuestion) (s : String) (t L : ℚ) (opt : QOption),
      q.options.find? (fun o => o.oid == s) = some opt → opt.isCorrect = true →
      scoreAnswer q s t L =
        jsRound ((q.points : ℚ) * (1 - (min t (L * 1000) / (L * 1000)) * (1/2)))) ∧
    (∀ (q : QuizQuestion) (s : String) (t L : ℚ) (opt : QOption),
      q.options.find? (fun o => o.oid == s) = some opt → opt.isCorrect = false →
      scoreAnswer q s t L = 0) ∧
    (∀ (q : QuizQuestion) (s : String) (t L : ℚ),
      q.options.find? (fun o => o.oid == s) = none → scoreAnswer q s t L = 0) ∧
    scoreAnswer sampleQ "a" 0 30 = 1000 ∧
    scoreAnswer sampleQ "a" 30000 30 = 500 := by
  refine ⟨?_, ?_, ?_, ?_, ?_⟩
  · intro q s t L opt hf hc
    simp [scoreAnswer, hf, hc]
  · intro q s t L opt hf hc
    simp [scoreAnswer, hf, hc]
  · intro q s t L hf
    simp [scoreAnswer, hf]
  · simp [scoreAnswer, sampleQ, jsRound]
    norm_num
  · simp [scoreAnswer, sampleQ, jsRound]
    norm_num

/-- Witness for C1 at concrete inputs. -/
theorem C1_per_answer_scoring_witness :
    scoreAnswer sampleQ "b" 123 30 = 0 :=
  C1_per_answer_scoring.2.1 sampleQ "b" 123 30 ⟨"b", false⟩ (by simp [sampleQ]) rfl

/-! ## C8 -/

/-- C8 counterexample: the code never clamps a client-supplied negative
`timeSpentMs` from below, so a correct answer with `timeSpentMs = -30000`
on the 1000-point, 30-second question gets time bonus factor 1.5 (outside
[0.5, 1.0]) and earns 1500 points, more than the question's point value. -/
theorem C8_counterexample :
    scoreAnswer sampleQ "a" (-30000) 30 = 1500 ∧
    sampleQ.points < 1500 ∧
    ¬ ((1 : ℚ) - (min (-30000 : ℚ) (30 * 1000) / (30 * 1000)) * (1/2) ≤ 1) := by
  refine ⟨?_, by norm_num [sampleQ], by norm_num⟩
  simp [scoreAnswer, sampleQ, jsRound]
  norm_num

/-- C8 (amended): for every answer judged correct whose `timeSpentMs` is
nonnegative (and a positive time limit and nonnegative point value), the
time bonus factor lies in [0.5, 1.0] and `pointsEarned` lies between
`round(0.5 * points)` and `points`. -/
theorem C8_amended_bonus_bounds (q : QuizQuestion) (s : String) (t L : ℚ)
    (opt : QOption) (hf : q.options.find? (fun o => o.oid == s) = some opt)
    (hc : opt.isCorrect = true) (ht : 0 ≤ t) (hL : 0 < L) (hp : 0 ≤ q.points) :
    ((1:ℚ)/2 ≤ 1 - (min t (L * 1000) / (L * 1000)) * (1/2) ∧
      1 - (min t (L * 1000) / (L * 1000)) * (1/2) ≤ 1) ∧
    jsRound ((q.points : ℚ) * (1/2)) ≤ scoreAnswer q s t L ∧
    scoreAnswer q s t L ≤ q.points := by
  have hT : (0:ℚ) < L * 1000 := by positivity
  have hmin_le : min t (L * 1000) ≤ L * 1000 := min_le_right _ _
  have hmin_nonneg : 0 ≤ min t (L * 1000) := le_min ht (le_of_lt hT)
  have hfrac_le : min t (L * 1000) / (L * 1000) ≤ 1 := by
    rw [div_le_one hT]; exact hmin_le
  have hfrac_nonneg : 0 ≤ min t (L * 1000) / (L * 1000) := by positivity
  have hbonus_lb : (1:ℚ)/2 ≤ 1 - (min t (L * 1000) / (L * 1000)) * (1/2) := by linarith
  have hbonus_ub : 1 - (min t (L * 1000) / (L * 1000)) * (1/2) ≤ 1 := by linarith
  have hscore : scoreAnswer q s t L =
      jsRound ((q.points : ℚ) * (1 - (min t (L * 1000) / (L * 1000)) * (1/2))) := by
    simp [scoreAnswer, hf, hc]
  have hpq : (0:ℚ) ≤ (q.points : ℚ) := by exact_mod_cast hp
  refine ⟨⟨hbonus_lb, hbonus_ub⟩, ?_, ?_⟩
  · rw [hscore]
    exact jsRound_mono (by nlinarith)
  · rw [hscore]
    calc jsRound ((q.points : ℚ) * (1 - (min t (L * 1000) / (L * 1000)) * (1/2)))
        ≤ jsRound ((q.points : ℚ)) := jsRound_mono (by nlinarith)
      _ = q.points := jsRound_intCast _

/-- Witness for the amended C8 at a concrete input. -/
theorem C8_amended_bonus_bounds_witness :
    ((1:ℚ)/2 ≤ 1 - (min 3 ((30:ℚ) * 1000) / ((30:ℚ) * 1000)) * (1/2) ∧
      1 - (min 3 ((30:ℚ) * 1000) / ((30:ℚ) * 1000)) * (1/2) ≤ 1) ∧
    jsRound ((sampleQ.points : ℚ) * (1/2)) ≤ scoreAnswer sampleQ "a" 3 30 ∧
    scoreAnswer sampleQ "a" 3 30 ≤ sampleQ.points :=
  C8_amended_bonus_bounds sampleQ "a" 3 30 ⟨"a", true⟩ (by simp [sampleQ]) rfl
    (by norm_num) (by norm_num) (by norm_num [sampleQ])

/-! ## C4 -/

/-- The penalty annotation string appended by `reduceParticipantPoints`. -/
def penaltyText (p : ℤ) (r : String) : String :=
  "PENALTY: " ++ toString p ++ " points reduced - " ++ r

/-- C4: `reduceParticipantPoints` rejects `pointsToReduce <= 0` with
`InvalidInput` leaving the attempt unchanged; otherwise it sets the
total score to `max(0, totalScore - pointsToReduce)` (never negative),
appends `"PENALTY: {p} points reduced - {reason}"` to the existing
flag-reason string (creating it if absent) and sets `isFlagged = true`;
reducing 200 from a score of 150 yields 0. -/
theorem C4_apply_penalty :
    (∀ (a : AttemptRec) (p : ℤ) (r : Option String), p ≤ 0 →
      reduceParticipantPoints a p r = (.error .InvalidInput, a)) ∧
    (∀ (a : AttemptRec) (p : ℤ) (r : String), 0 < p → r ≠ "" →
      (reduceParticipantPoints a p (some r)).2.totalScore = max 0 (a.totalScore - p) ∧
      (reduceParticipantPoints a p (some r)).2.isFlagged = true ∧
      (∀ old, a.flagReason = some old → old ≠ "" →
        (reduceParticipantPoints a p (some r)).2.flagReason =
          some (old ++ "; " ++ penaltyText p r)) ∧
      (a.flagReason = none →
        (reduceParticipantPoints a p (some r)).2.flagReason = some (penaltyText p r))) ∧
    (reduceParticipantPoints ⟨150, false, none⟩ 200 (some "test")).2.totalScore = 0 ∧
    (reduceParticipantPoints ⟨150, false, none⟩ 200 (some "test")).2.flagReason =
      some ("PENALTY: 200 points reduced - test") := by
  refine ⟨?_, ?_, ?_, ?_⟩
  · intro a p r hp
    simp [reduceParticipantPoints, hp]
  · intro a p r hp hr
    have hnp : ¬ p ≤ 0 := not_le.mpr hp
    refine ⟨?_, ?_, ?_, ?_⟩
    · simp [reduceParticipantPoints, hnp]
    · simp [reduceParticipantPoints, hnp]
    · intro old hold holdne
      simp [reduceParticipantPoints, hnp, hold, jsTruthyStr, hr, holdne, penaltyText]
    · intro hnone
      simp [reduceParticipantPoints, hnp, hnone, jsTruthyStr, hr, penaltyText]
  · simp [reduceParticipantPoints, jsTruthyStr]
  · simp [reduceParticipantPoints, jsTruthyStr]
    rfl

/-- Witness for C4 at a concrete input. -/
theorem C4_apply_penalty_witness :
    reduceParticipantPoints ⟨150, false, none⟩ (-5) (some "x") =
      (.error .InvalidInput, (⟨150, false, none⟩ : AttemptRec)) :=
  C4_apply_penalty.1 ⟨150, false, none⟩ (-5) (some "x") (by norm_num)

end AidevBackend

namespace AidevBackend

/-! ## C2 -/

/-- A store with one event of capacity 1 whose only registration is
CANCELLED, and a second user who tries to register. -/
def storeC2 : Store :=
  { events := [{ eid := 1, capacity := 1, requiresApproval := false,
                 eligibleLevels := none, eligiblePrograms := none }],
    users := [{ uid := 42, studyLevel := none, studyProgram := none }],
    registrations := [{ rid := 0, eventId := 1, userId := 7, qrToken := "t0",
                        status := .CANCELLED, checkedInAt := none,
                        reviewedBy := none, reviewedAt := none,
                        reviewComment := none }] }

/-- C2 counterexample: the capacity check counts ALL registrations, with
no status filter; on an event of capacity 1 whose only registration is
CANCELLED, the code rejects a new registration with `CapacityExceeded`
even though the count of non-cancelled registrations (0) is strictly
below the capacity. -/
theorem C2_counterexample :
    ((storeC2.registrations.filter
        (fun r => r.eventId == 1 && !(r.status == RegStatus.CANCELLED))).length : ℤ) <
      (1 : ℤ) ∧
    (registerForEvent storeC2 1 42 1 "tok").1 = .error .CapacityExceeded := by
  constructor
  · simp [storeC2]
  · simp [registerForEvent, storeC2, countRegistrations]

/-- C2 (amended): for an existing event, `registerForEvent` fails with
`CapacityExceeded` exactly when the count of ALL registrations for the
event — CANCELLED ones included — is not strictly less than the
capacity; cancelled registrations DO count against capacity. -/
theorem C2_amended_capacity (st : Store) (eventId userId freshId : ℕ)
    (tok : String) (e : Event)
    (hfind : st.events.find? (fun x => x.eid == eventId) = some e) :
    (registerForEvent st eventId userId freshId tok).1 = .error .CapacityExceeded ↔
      e.capacity ≤ (countRegistrations st eventId : ℤ) := by
  by_cases hc : (countRegistrations st eventId : ℤ) ≥ e.capacity
  · simp [registerForEvent, hfind, hc]
  · cases hdup : st.registrations.find? (fun r => r.eventId == eventId && r.userId == userId) with
    | some r0 => simp [registerForEvent, hfind, hc, hdup]
    | none =>
      by_cases he : (e.requiresApproval &&
          !eligibility e (st.users.find? (fun u => u.uid == userId))) = true
      · simp [registerForEvent, hfind, hc, hdup, he]
      · simp [registerForEvent, hfind, hc, hdup, he]

/-- Witness for the amended C2 at a concrete input (the CANCELLED-only
store, where the count of all rows is 1 ≥ capacity 1). -/
theorem C2_amended_capacity_witness :
    (registerForEvent storeC2 1 42 1 "tok").1 = .error .CapacityExceeded ↔
      (1 : ℤ) ≤ (countRegistrations storeC2 1 : ℤ) :=
  C2_amended_capacity storeC2 1 42 1 "tok"
    { eid := 1, capacity := 1, requiresApproval := false,
      eligibleLevels := none, eligiblePrograms := none }
    (by simp [storeC2])

end AidevBackend

namespace AidevBackend

/-! ## C3 -/

theorem stepEligible_false (restriction : Option (List String)) (attr : Option String) :
    stepEligible false restriction attr = false := by
  cases restriction with
  | none => rfl
  | some ls =>
    simp [stepEligible]

theorem stepEligible_fail (ls : List String) (attr : Option String)
    (hne : ls ≠ [])
    (hattr : attr = none ∨ ∃ s, attr = some s ∧ s ∉ ls) :
    stepEligible true (some ls) attr = false := by
  have hlen : 0 < ls.length := List.length_pos.mpr hne
  rcases hattr with h | ⟨s, hs, hmem⟩
  · simp [stepEligible, hlen, h, jsTruthyStr]
  · by_cases hempty : s = ""
    · simp [stepEligible, hlen, hs, hempty, jsTruthyStr]
    · simp [stepEligible, hlen, hs, jsTruthyStr, hempty, hmem]

/-- C3: on an approval-requiring event with a non-empty `eligibleLevels`
list, a registering user whose `studyLevel` is missing or not a member
of the list gets `NotEligible` and the store is unchanged; the same
holds for `eligiblePrograms` versus `studyProgram`; empty (or absent)
restriction lists impose no restriction. -/
theorem C3_eligibility_block :
    (∀ (st : Store) (eventId userId freshId : ℕ) (tok : String) (e : Event)
        (ls : List String) (u : User),
      st.events.find? (fun x => x.eid == eventId) = some e →
      e.requiresApproval = true →
      e.eligibleLevels = some ls → ls ≠ [] →
      (countRegistrations st eventId : ℤ) < e.capacity →
      st.registrations.find? (fun r => r.eventId == eventId && r.userId == userId) = none →
      st.users.find? (fun x => x.uid == userId) = some u →
      (u.studyLevel = none ∨ ∃ s, u.studyLevel = some s ∧ s ∉ ls) →
      registerForEvent st eventId userId freshId tok = (.error .NotEligible, st)) ∧
    (∀ (st : Store) (eventId userId freshId : ℕ) (tok : String) (e : Event)
        (ls : List String) (u : User),
      st.events.find? (fun x => x.eid == eventId) = some e →
      e.requiresApproval = true →
      e.eligiblePrograms = some ls → ls ≠ [] →
      (countRegistrations st eventId : ℤ) < e.capacity →
      st.registrations.find? (fun r => r.eventId == eventId && r.userId == userId) = none →
      st.users.find? (fun x => x.uid == userId) = some u →
      (u.studyProgram = none ∨ ∃ s, u.studyProgram = some s ∧ s ∉ ls) →
      registerForEvent st eventId userId freshId tok = (.error .NotEligible, st)) ∧
    (∀ (e : Event) (u : Option User),
      (e.eligibleLevels = none ∨ e.eligibleLevels = some []) →
      (e.eligiblePrograms = none ∨ e.eligiblePrograms = some []) →
      eligibility e u = true) := by
  refine ⟨?_, ?_, ?_⟩
  · intro st eventId userId freshId tok e ls u hfind happ hlev hne hcap hdup huser hattr
    have hnc : ¬ (countRegistrations st eventId : ℤ) ≥ e.capacity := not_le.mpr hcap
    have helig : eligibility e (some u) = false := by
      unfold eligibility
      rw [show ((some u).bind User.studyLevel) = u.studyLevel from rfl, hlev]
      rw [stepEligible_fail ls u.studyLevel hne hattr]
      exact stepEligible_false _ _
    simp [registerForEvent, hfind, hnc, hdup, huser, helig, happ]
  · intro st eventId userId freshId tok e ls u hfind happ hprog hne hcap hdup huser hattr
    have hnc : ¬ (countRegistrations st eventId : ℤ) ≥ e.capacity := not_le.mpr hcap
    have helig : eligibility e (some u) = false := by
      unfold eligibility
      rw [show ((some u).bind User.studyProgram) = u.studyProgram from rfl, hprog]
      cases hb : stepEligible true e.eligibleLevels ((some u).bind User.studyLevel) with
      | false => exact stepEligible_false _ _
      | true => exact stepEligible_fail ls u.studyProgram hne hattr
    simp [registerForEvent, hfind, hnc, hdup, huser, helig, happ]
  · intro e u hlev hprog
    unfold eligibility
    rcases hlev with h | h <;> rcases hprog with h2 | h2 <;>
      simp [h, h2, stepEligible]

end AidevBackend

namespace AidevBackend

/-- The spec's eligibility example: approval-requiring event with
`eligibleLevels = ["Graduate"]`, `eligiblePrograms = []`, and a user
with `studyLevel = null`. -/
def storeC3 : Store :=
  { events := [{ eid := 1, capacity := 10, requiresApproval := true,
                 eligibleLevels := some ["Graduate"], eligiblePrograms := some [] }],
    users := [{ uid := 5, studyLevel := none, studyProgram := none }],
    registrations := [] }

/-- Witness for C3 at the spec's concrete example. -/
theorem C3_eligibility_block_witness :
    registerForEvent storeC3 1 5 0 "tok" = (.error .NotEligible, storeC3) :=
  C3_eligibility_block.1 storeC3 1 5 0 "tok"
    { eid := 1, capacity := 10, requiresApproval := true,
      eligibleLevels := some ["Graduate"], eligiblePrograms := some [] }
    ["Graduate"] { uid := 5, studyLevel := none, studyProgram := none }
    (by simp [storeC3]) rfl rfl (by simp) (by simp [storeC3, countRegistrations])
    (by simp [storeC3]) (by simp [storeC3]) (Or.inl rfl)

/-! ## C6 -/

/-- Replacing the uniquely found row in a list keeps it findable: if
`find?` by id returns `reg` and `reg2` carries the same id, then after
mapping the replace-by-id function, `find?` returns `reg2`. -/
theorem find_replace (l : List Registration) (rid : ℕ) (reg reg2 : Registration)
    (h : l.find? (fun r => r.rid == rid) = some reg) (h2 : reg2.rid = rid) :
    (replaceReg l rid reg2).find? (fun r => r.rid == rid) = some reg2 := by
  induction l with
  | nil => simp at h
  | cons a as ih =>
    by_cases ha : a.rid = rid
    · simp [replaceReg, ha, h2]
    · have ha2 : (a.rid == rid) = false := by simp [ha]
      rw [List.find?_cons_of_neg _ (by simp [ha])] at h
      simp only [replaceReg, List.map_cons, if_neg (by simpa using ha)]
      rw [List.find?_cons_of_neg _ (by simp [ha])]
      simpa [replaceReg] using ih h

end AidevBackend

namespace AidevBackend

/-- Inversion of a successful approval: the registration was found, was
PENDING, and the result/store are the CONFIRMED update. -/
theorem approve_ok_elim (st : Store) (rid rev : ℕ) (now : ℚ) (c : Option String)
    (r : Registration) (st2 : Store)
    (h : approveRegistration st rid rev now c = (.ok r, st2)) :
    ∃ reg, st.registrations.find? (fun x => x.rid == rid) = some reg ∧
      reg.status = RegStatus.PENDING ∧
      r = { reg with
            status := RegStatus.CONFIRMED
            reviewedBy := some rev
            reviewedAt := some now
            reviewComment := c } ∧
      st2 = { st with registrations := replaceReg st.registrations rid r } := by
  unfold approveRegistration at h
  cases hfind : st.registrations.find? (fun x => x.rid == rid) with
  | none => rw [hfind] at h; simp at h
  | some reg =>
    rw [hfind] at h
    dsimp only at h
    by_cases hs : reg.status = RegStatus.PENDING
    · rw [if_neg (by simp [hs])] at h
      simp only [Prod.mk.injEq, Except.ok.injEq] at h
      obtain ⟨h1, h2⟩ := h
      exact ⟨reg, rfl, hs, h1.symm, by rw [← h2, h1]⟩
    · rw [if_pos hs] at h
      simp at h

/-- Inversion of a successful rejection: the registration was found and
was PENDING. -/
theorem reject_ok_elim (st : Store) (rid rev : ℕ) (now : ℚ) (c : Option String)
    (r : Registration) (st2 : Store)
    (h : rejectRegistration st rid rev now c = (.ok r, st2)) :
    ∃ reg, st.registrations.find? (fun x => x.rid == rid) = some reg ∧
      reg.status = RegStatus.PENDING := by
  unfold rejectRegistration at h
  cases hfind : st.registrations.find? (fun x => x.rid == rid) with
  | none => rw [hfind] at h; simp at h
  | some reg =>
    rw [hfind] at h
    dsimp only at h
    by_cases hs : reg.status = RegStatus.PENDING
    · exact ⟨reg, rfl, hs⟩
    · rw [if_pos hs] at h
      simp at h

/-- C6: approve and reject succeed only on a registration in PENDING
status and return `InvalidState` otherwise, leaving the store unchanged
on failure; after a successful approval, a second approval of the same
registration returns `InvalidState`, and the status remains CONFIRMED
exactly as the first call left it. -/
theorem C6_approval_one_shot :
    (∀ (st : Store) (rid rev : ℕ) (now : ℚ) (c : Option String) (reg : Registration),
      st.registrations.find? (fun r => r.rid == rid) = some reg →
      reg.status ≠ .PENDING →
      approveRegistration st rid rev now c = (.error .InvalidState, st)) ∧
    (∀ (st : Store) (rid rev : ℕ) (now : ℚ) (c : Option String) (reg : Registration),
      st.registrations.find? (fun r => r.rid == rid) = some reg →
      reg.status ≠ .PENDING →
      rejectRegistration st rid rev now c = (.error .InvalidState, st)) ∧
    (∀ (st : Store) (rid rev : ℕ) (now : ℚ) (c : Option String)
        (r : Registration) (st2 : Store),
      approveRegistration st rid rev now c = (.ok r, st2) →
      ∃ reg, st.registrations.find? (fun x => x.rid == rid) = some reg ∧
        reg.status = .PENDING) ∧
    (∀ (st : Store) (rid rev : ℕ) (now : ℚ) (c : Option String)
        (r : Registration) (st2 : Store),
      rejectRegistration st rid rev now c = (.ok r, st2) →
      ∃ reg, st.registrations.find? (fun x => x.rid == rid) = some reg ∧
        reg.status = .PENDING) ∧
    (∀ (st : Store) (rid rev rev2 : ℕ) (now now2 : ℚ) (c c2 : Option String)
        (r : Registration) (st2 : Store),
      approveRegistration st rid rev now c = (.ok r, st2) →
      approveRegistration st2 rid rev2 now2 c2 = (.error .InvalidState, st2) ∧
      st2.registrations.find? (fun x => x.rid == rid) = some r ∧
      r.status = .CONFIRMED) := by
  refine ⟨?_, ?_, ?_, ?_, ?_⟩
  · intro st rid rev now c reg hfind hs
    simp [approveRegistration, hfind, hs]
  · intro st rid rev now c reg hfind hs
    simp [rejectRegistration, hfind, hs]
  · intro st rid rev now c r st2 h
    obtain ⟨reg, hfind, hs, _, _⟩ := approve_ok_elim st rid rev now c r st2 h
    exact ⟨reg, hfind, hs⟩
  · intro st rid rev now c r st2 h
    exact reject_ok_elim st rid rev now c r st2 h
  · intro st rid rev rev2 now now2 c c2 r st2 h
    obtain ⟨reg, hfind, hs, hr, hst2⟩ := approve_ok_elim st rid rev now c r st2 h
    have hrid : reg.rid = rid := by
      have := List.find?_some hfind
      simpa using this
    have hr_rid : r.rid = rid := by rw [hr]; exact hrid
    have hr_status : r.status = RegStatus.CONFIRMED := by rw [hr]
    have hfind2 : st2.registrations.find? (fun x => x.rid == rid) = some r := by
      rw [hst2]
      exact find_replace st.registrations rid reg r hfind hr_rid
    refine ⟨?_, hfind2, hr_status⟩
    simp [approveRegistration, hfind2, hr_status]

end AidevBackend

namespace AidevBackend

/-- A store holding one CONFIRMED registration (as left by a first
approval call). -/
def storeC6 : Store :=
  { events := [], users := [],
    registrations := [{ rid := 0, eventId := 1, userId := 5, qrToken := "t0",
                        status := .CONFIRMED, checkedInAt := none,
                        reviewedBy := some 9, reviewedAt := none,
                        reviewComment := none }] }

/-- Witness for C6: approving an already CONFIRMED registration returns
`InvalidState` and leaves the store unchanged. -/
theorem C6_approval_one_shot_witness :
    approveRegistration storeC6 0 9 0 none = (.error .InvalidState, storeC6) :=
  C6_approval_one_shot.1 storeC6 0 9 0 none
    { rid := 0, eventId := 1, userId := 5, qrToken := "t0",
      status := .CONFIRMED, checkedInAt := none,
      reviewedBy := some 9, reviewedAt := none, reviewComment := none }
    (by simp [storeC6]) (by simp)

/-! ## C9 -/

/-- C9: `checkIn` returns `NotFound` when no registration matches
(event, token); returns `AlreadyCheckedIn` leaving the store — hence
the original timestamp — unchanged when the check-in timestamp is
already set; otherwise stamps the timestamp with the current time and
returns the updated record. -/
theorem C9_check_in :
    (∀ (st : Store) (eventId : ℕ) (tok : String) (now : ℚ),
      st.registrations.find? (fun r => r.eventId == eventId && r.qrToken == tok) = none →
      checkIn st eventId tok now = (.error .NotFound, st)) ∧
    (∀ (st : Store) (eventId : ℕ) (tok : String) (now t0 : ℚ) (reg : Registration),
      st.registrations.find? (fun r => r.eventId == eventId && r.qrToken == tok) = some reg →
      reg.checkedInAt = some t0 →
      checkIn st eventId tok now = (.error .AlreadyCheckedIn, st)) ∧
    (∀ (st : Store) (eventId : ℕ) (tok : String) (now : ℚ) (reg : Registration),
      st.registrations.find? (fun r => r.eventId == eventId && r.qrToken == tok) = some reg →
      reg.checkedInAt = none →
      checkIn st eventId tok now =
        (.ok { reg with checkedInAt := some now },
         { st with registrations :=
            replaceReg st.registrations reg.rid { reg with checkedInAt := some now } })) := by
  refine ⟨?_, ?_, ?_⟩
  · intro st eventId tok now hfind
    simp [checkIn, hfind]
  · intro st eventId tok now t0 reg hfind hset
    simp [checkIn, hfind, hset]
  · intro st eventId tok now reg hfind hunset
    simp [checkIn, hfind, hunset]

/-- A REGISTERED, not-yet-checked-in registration holding token "t0". -/
def regT0 : Registration :=
  { rid := 0, eventId := 1, userId := 5, qrToken := "t0",
    status := .REGISTERED, checkedInAt := none, reviewedBy := none,
    reviewedAt := none, reviewComment := none }

/-- A REJECTED, not-yet-checked-in registration holding token "t1". -/
def regT1 : Registration :=
  { rid := 1, eventId := 1, userId := 6, qrToken := "t1",
    status := .REJECTED, checkedInAt := none, reviewedBy := none,
    reviewedAt := none, reviewComment := none }

/-- A store with a REGISTERED and a REJECTED registration, neither
checked in, each holding its own token. -/
def storeC9 : Store :=
  { events := [], users := [], registrations := [regT0, regT1] }

/-- Witness for C9: checking in the first registration of `storeC9`. -/
theorem C9_check_in_witness :
    checkIn storeC9 1 "t0" 77 =
      (.ok { regT0 with checkedInAt := some 77 },
       { storeC9 with registrations := replaceReg storeC9.registrations 0 { regT0 with checkedInAt := some 77 } }) :=
  C9_check_in.2.2 storeC9 1 "t0" 77 regT0 (by simp [storeC9, regT0, regT1]) rfl

/-! ## C10 -/

/-- C10: `checkIn` never inspects the registration's status — for every
registration whose token matches and whose check-in timestamp is unset,
check-in succeeds and stamps the timestamp whatever the status value
(REGISTERED, CONFIRMED, PENDING, REJECTED, CANCELLED or WAITLIST). -/
theorem C10_check_in_ignores_status :
    ∀ (st : Store) (eventId : ℕ) (tok : String) (now : ℚ)
      (reg : Registration) (s : RegStatus),
      st.registrations.find? (fun r => r.eventId == eventId && r.qrToken == tok) = some reg →
      reg.checkedInAt = none → reg.status = s →
      (checkIn st eventId tok now).1 = .ok { reg with checkedInAt := some now } := by
  intro st eventId tok now reg s hfind hunset hstatus
  simp [checkIn, hfind, hunset]

/-- Witness for C10: a REJECTED registrant with a valid token is checked
in exactly like an approved one. -/
theorem C10_check_in_ignores_status_witness :
    (checkIn storeC9 1 "t1" 99).1 = .ok { regT1 with checkedInAt := some 99 } :=
  C10_check_in_ignores_status storeC9 1 "t1" 99 regT1 .REJECTED
    (by simp [storeC9, regT0, regT1]) rfl rfl

end AidevBackend

namespace AidevBackend

/-! ## C5 -/

/-- The decidable square-free test of `rule5` coincides with the
source's `sqrt(variance)/mean < 0.3` formulation. -/
theorem rule5_cv_iff (ts : List ℚ) :
    rule5 ts = true ↔
      ((mediumDelayCount ts : ℚ) > (ts.length : ℚ) * (7/10) ∧
       Real.sqrt (popVariance ts) / (listMean ts : ℝ) < 3/10 ∧
       listMean ts > 5000) := by
  unfold rule5
  simp only [Bool.and_eq_true, decide_eq_true_eq]
  constructor
  · rintro ⟨⟨h1, h2⟩, h3⟩
    refine ⟨h1, ?_, h3⟩
    have hm : (0:ℝ) < (listMean ts : ℝ) := by
      calc (0:ℝ) < 5000 := by norm_num
        _ < ((listMean ts : ℚ) : ℝ) := by exact_mod_cast h3
    rw [div_lt_iff₀ hm]
    rw [Real.sqrt_lt' (by positivity)]
    have h2R : 100 * ((popVariance ts : ℚ) : ℝ) < 9 * ((listMean ts : ℚ) : ℝ) ^ 2 := by
      exact_mod_cast h2
    nlinarith [h2R]
  · rintro ⟨h1, h2, h3⟩
    refine ⟨⟨h1, ?_⟩, h3⟩
    have hm : (0:ℝ) < (listMean ts : ℝ) := by
      calc (0:ℝ) < 5000 := by norm_num
        _ < ((listMean ts : ℚ) : ℝ) := by exact_mod_cast h3
    rw [div_lt_iff₀ hm] at h2
    rw [Real.sqrt_lt' (by positivity)] at h2
    have : 100 * ((popVariance ts : ℚ) : ℝ) < 9 * ((listMean ts : ℚ) : ℝ) ^ 2 := by
      nlinarith [h2]
    exact_mod_cast this

/-- Ten answers all taking exactly 8000 ms. -/
def tenAt8000 : List ℚ :=
  [8000, 8000, 8000, 8000, 8000, 8000, 8000, 8000, 8000, 8000]

/-- Ten answers alternating 500 ms and 25000 ms. -/
def altTimes : List ℚ :=
  [500, 25000, 500, 25000, 500, 25000, 500, 25000, 500, 25000]

theorem tenAt8000_mean : listMean tenAt8000 = 8000 := by
  norm_num [listMean, tenAt8000]

theorem tenAt8000_variance : popVariance tenAt8000 = 0 := by
  norm_num [popVariance, tenAt8000, tenAt8000_mean, listMean]

theorem rule5_tenAt8000 : rule5 tenAt8000 = true := by
  unfold rule5
  rw [tenAt8000_mean]
  have hmed : mediumDelayCount tenAt8000 = 10 := by
    norm_num [mediumDelayCount, tenAt8000]
  rw [hmed, tenAt8000_variance]
  norm_num [tenAt8000]

theorem rule5_altTimes : rule5 altTimes = false := by
  unfold rule5
  have hmed : mediumDelayCount altTimes = 0 := by
    norm_num [mediumDelayCount, altTimes]
  rw [hmed]
  norm_num [altTimes]

end AidevBackend

namespace AidevBackend

theorem integrity_tenAt8000 :
    integrityCheck noSignals tenAt8000 =
      (["Suspicious timing pattern detected (consistent 8s delays suggest external device usage)"],
       true) := by
  have h8 : jsRound ((8000:ℚ) / 1000) = 8 := by norm_num [jsRound]
  simp only [integrityCheck, noSignals]
  rw [tenAt8000_mean, rule5_tenAt8000]
  norm_num [tenAt8000, h8]
  have h8b : jsRound (8:ℚ) = 8 := by norm_num [jsRound]
  rw [h8b]
  decide

/-- C5: rule 5 fires (and forces `isFlagged = true`) exactly when more
than 70% of the answers took between 5000 and 20000 ms inclusive, the
coefficient of variation (population standard deviation over mean) of
the times is strictly below 0.3, and the mean time is strictly above
5000 ms; ten answers at exactly 8000 ms fire it with a reason
mentioning external device usage, while answers alternating 500 ms and
25000 ms do not fire it. -/
theorem C5_phone_use_rule :
    (∀ ts : List ℚ, ts ≠ [] →
      (rule5 ts = true ↔
        ((mediumDelayCount ts : ℚ) > (ts.length : ℚ) * (7/10) ∧
         Real.sqrt (popVariance ts) / (listMean ts : ℝ) < 3/10 ∧
         listMean ts > 5000))) ∧
    (∀ (sig : IntegritySignals) (ts : List ℚ),
      rule5 ts = true → (integrityCheck sig ts).2 = true) ∧
    rule5 tenAt8000 = true ∧
    (integrityCheck noSignals tenAt8000).2 = true ∧
    (∃ pre post, (integrityCheck noSignals tenAt8000).1 =
      [pre ++ "external device" ++ post]) ∧
    rule5 altTimes = false := by
  refine ⟨?_, ?_, rule5_tenAt8000, ?_, ?_, rule5_altTimes⟩
  · intro ts _
    exact rule5_cv_iff ts
  · intro sig ts h
    simp [integrityCheck, h]
  · rw [integrity_tenAt8000]
  · refine ⟨"Suspicious timing pattern detected (consistent 8s delays suggest ",
      " usage)", ?_⟩
    rw [integrity_tenAt8000]
    decide

/-- Witness for C5: the biconditional instantiated at the ten-answer
8000 ms example. -/
theorem C5_phone_use_rule_witness :
    rule5 tenAt8000 = true ↔
      ((mediumDelayCount tenAt8000 : ℚ) > (tenAt8000.length : ℚ) * (7/10) ∧
       Real.sqrt (popVariance tenAt8000) / (listMean tenAt8000 : ℝ) < 3/10 ∧
       listMean tenAt8000 > 5000) :=
  C5_phone_use_rule.1 tenAt8000 (by simp [tenAt8000])

end AidevBackend

namespace AidevBackend

/-! ## C7 -/

theorem mem_insertDesc (x a : ℕ × ℤ) (l : List (ℕ × ℤ)) :
    a ∈ insertDesc x l ↔ a = x ∨ a ∈ l := by
  induction l with
  | nil => simp [insertDesc]
  | cons y ys ih =>
    by_cases h : x.2 ≤ y.2
    · simp only [insertDesc, if_pos h, List.mem_cons, ih]
      tauto
    · simp only [insertDesc, if_neg h, List.mem_cons]

theorem insertDesc_pairwise (x : ℕ × ℤ) (l : List (ℕ × ℤ))
    (h : l.Pairwise (fun a b => b.2 ≤ a.2)) :
    (insertDesc x l).Pairwise (fun a b => b.2 ≤ a.2) := by
  induction l with
  | nil => simp [insertDesc]
  | cons y ys ih =>
    rcases List.pairwise_cons.mp h with ⟨hy, hys⟩
    by_cases hle : x.2 ≤ y.2
    · simp only [insertDesc, if_pos hle]
      refine List.pairwise_cons.mpr ⟨?_, ih hys⟩
      intro z hz
      rcases (mem_insertDesc x z ys).mp hz with rfl | hzys
      · exact hle
      · exact hy z hzys
    · simp only [insertDesc, if_neg hle]
      refine List.pairwise_cons.mpr ⟨?_, h⟩
      intro z hz
      rcases List.mem_cons.mp hz with rfl | hzys
      · exact le_of_lt (not_le.mp hle)
      · exact le_trans (hy z hzys) (le_of_lt (not_le.mp hle))

theorem foldl_insertDesc_pairwise (l : List (ℕ × ℤ)) :
    ∀ acc, acc.Pairwise (fun a b => b.2 ≤ a.2) →
      (l.foldl (fun acc x => insertDesc x acc) acc).Pairwise (fun a b => b.2 ≤ a.2) := by
  induction l with
  | nil => intro acc h; simpa using h
  | cons x xs ih =>
    intro acc h
    exact ih _ (insertDesc_pairwise x acc h)

theorem sortByScoreDesc_pairwise (l : List (ℕ × ℤ)) :
    (sortByScoreDesc l).Pairwise (fun a b => b.2 ≤ a.2) :=
  foldl_insertDesc_pairwise l [] (by simp)

theorem assignRanks_length (l : List (ℕ × ℤ)) :
    ∀ k, (assignRanks k l).length = l.length := by
  induction l with
  | nil => intro k; rfl
  | cons x xs ih => intro k; simp [assignRanks, ih]

theorem assignRanks_get (l : List (ℕ × ℤ)) :
    ∀ (k i : ℕ) (h : i < (assignRanks k l).length),
      ((assignRanks k l).get ⟨i, h⟩).2.2 = k + i + 1 := by
  induction l with
  | nil => intro k i h; simp [assignRanks] at h
  | cons x xs ih =>
    intro k i h
    cases i with
    | zero => simp [assignRanks]
    | succ j =>
      have hj : j < (assignRanks (k + 1) xs).length := by
        simpa [assignRanks] using h
      have : ((assignRanks k (x :: xs)).get ⟨j + 1, h⟩) =
          ((assignRanks (k + 1) xs).get ⟨j, hj⟩) := rfl
      rw [this, ih (k + 1) j hj]
      omega

theorem assignRanks_map_proj (l : List (ℕ × ℤ)) :
    ∀ k, (assignRanks k l).map (fun e => (e.1, e.2.1)) = l := by
  induction l with
  | nil => intro k; rfl
  | cons x xs ih => intro k; simp [assignRanks, ih]

theorem assignRanks_pairwise (l : List (ℕ × ℤ)) (k : ℕ)
    (h : l.Pairwise (fun a b => b.2 ≤ a.2)) :
    (assignRanks k l).Pairwise (fun a b => b.2.1 ≤ a.2.1) := by
  have hmap : ((assignRanks k l).map (fun e => (e.1, e.2.1))).Pairwise
      (fun a b => b.2 ≤ a.2) := by
    rw [assignRanks_map_proj l k]; exact h
  rw [List.pairwise_map] at hmap
  exact hmap

end AidevBackend

namespace AidevBackend

/-- The accumulated score a pair list holds for a user (0 if absent). -/
def lookupScore (l : List (ℕ × ℤ)) (uid : ℕ) : ℤ :=
  ((l.filter (fun p => p.1 == uid)).map Prod.snd).sum

/-- The sum of a user's attempt scores in a list of rows. -/
def userTotal (rows : List AttemptRow) (uid : ℕ) : ℤ :=
  ((rows.filter (fun r => r.userId == uid)).map AttemptRow.totalScore).sum

theorem lookupScore_cons (x : ℕ × ℤ) (l : List (ℕ × ℤ)) (uid : ℕ) :
    lookupScore (x :: l) uid = (if x.1 = uid then x.2 else 0) + lookupScore l uid := by
  by_cases h : x.1 = uid <;> simp [lookupScore, List.filter_cons, h]

theorem lookupScore_append (l₁ l₂ : List (ℕ × ℤ)) (uid : ℕ) :
    lookupScore (l₁ ++ l₂) uid = lookupScore l₁ uid + lookupScore l₂ uid := by
  simp [lookupScore, List.filter_append]

theorem lookupScore_update (s : ℤ) (k uid : ℕ) :
    ∀ acc : List (ℕ × ℤ), (acc.map Prod.fst).Nodup →
      acc.any (fun p => p.1 == k) = true →
      lookupScore (acc.map (fun p => if p.1 == k then (p.1, p.2 + s) else p)) uid =
        lookupScore acc uid + (if uid = k then s else 0) := by
  intro acc
  induction acc with
  | nil => intro _ hany; simp at hany
  | cons a as ih =>
    intro hnd hany
    rw [List.map_cons, List.nodup_cons] at hnd
    obtain ⟨ha_not, hnd2⟩ := hnd
    by_cases hak : a.1 = k
    · have hnone : ∀ p ∈ as, ¬ p.1 = k := by
        intro p hp hpk
        exact ha_not (by
          rw [hak, ← hpk]
          exact List.mem_map.mpr ⟨p, hp, rfl⟩)
      have hmap_as : as.map (fun p => if p.1 == k then (p.1, p.2 + s) else p) = as := by
        have := List.map_congr_left (l := as)
          (f := fun p => if p.1 == k then (p.1, p.2 + s) else p) (g := id)
          (fun p hp => by simp [hnone p hp])
        simpa using this
      rw [List.map_cons, hmap_as]
      have hga : (if (a.1 == k) = true then (a.1, a.2 + s) else a) = (a.1, a.2 + s) := by
        simp [hak]
      rw [hga, lookupScore_cons, lookupScore_cons]
      by_cases huk : uid = k
      · have hau : a.1 = uid := by rw [hak, huk]
        rw [if_pos hau, if_pos huk, if_pos hau]
        ring
      · have hau : ¬ a.1 = uid := by rw [hak]; exact fun h => huk h.symm
        rw [if_neg hau, if_neg huk, if_neg hau]
        ring
    · have hga : (if (a.1 == k) = true then (a.1, a.2 + s) else a) = a := by
        simp [hak]
      have hany2 : as.any (fun p => p.1 == k) = true := by
        rcases List.any_eq_true.mp hany with ⟨p, hp, hpk⟩
        rcases List.mem_cons.mp hp with rfl | hpas
        · exact absurd (by simpa using hpk) hak
        · exact List.any_eq_true.mpr ⟨p, hpas, hpk⟩
      rw [List.map_cons, hga, lookupScore_cons, lookupScore_cons,
        ih hnd2 hany2]
      ring

theorem groupStep_keys_nodup (acc : List (ℕ × ℤ)) (r : AttemptRow)
    (h : (acc.map Prod.fst).Nodup) :
    ((groupStep acc r).map Prod.fst).Nodup := by
  unfold groupStep
  by_cases hany : acc.any (fun p => p.1 == r.userId) = true
  · rw [if_pos hany]
    have : (acc.map (fun p => if p.1 == r.userId then (p.1, p.2 + r.totalScore) else p)).map
        Prod.fst = acc.map Prod.fst := by
      rw [List.map_map]
      exact List.map_congr_left (fun p _ => by by_cases hp : p.1 = r.userId <;> simp [hp])
    rw [this]
    exact h
  · rw [if_neg hany]
    have hnotin : r.userId ∉ acc.map Prod.fst := by
      intro hmem
      rcases List.mem_map.mp hmem with ⟨p, hp, hpk⟩
      exact hany (List.any_eq_true.mpr ⟨p, hp, by simp [hpk]⟩)
    simp only [List.map_append, List.map_cons, List.map_nil]
    rw [List.nodup_append]
    exact ⟨h, List.nodup_singleton _, by simpa using hnotin⟩

theorem foldl_groupStep_lookup (rows : List AttemptRow) :
    ∀ acc : List (ℕ × ℤ), (acc.map Prod.fst).Nodup →
      ((rows.foldl groupStep acc).map Prod.fst).Nodup ∧
      ∀ uid, lookupScore (rows.foldl groupStep acc) uid =
        lookupScore acc uid + userTotal rows uid := by
  induction rows with
  | nil =>
    intro acc h
    exact ⟨h, fun uid => by simp [userTotal, lookupScore]⟩
  | cons r rs ih =>
    intro acc h
    have hstep_nd := groupStep_keys_nodup acc r h
    obtain ⟨hnd, hsum⟩ := ih (groupStep acc r) hstep_nd
    refine ⟨?_, fun uid => ?_⟩
    · rw [List.foldl_cons]
      exact hnd
    rw [List.foldl_cons, hsum uid]
    have hstep_sum : lookupScore (groupStep acc r) uid =
        lookupScore acc uid + (if uid = r.userId then r.totalScore else 0) := by
      unfold groupStep
      by_cases hany : acc.any (fun p => p.1 == r.userId) = true
      · rw [if_pos hany]
        exact lookupScore_update r.totalScore r.userId uid acc h hany
      · rw [if_neg hany, lookupScore_append]
        have : lookupScore [(r.userId, r.totalScore)] uid =
            (if uid = r.userId then r.totalScore else 0) := by
          by_cases huk : uid = r.userId
          · subst huk
            simp [lookupScore]
          · rw [if_neg huk]
            have h2 : ¬ r.userId = uid := fun hh => huk hh.symm
            simp [lookupScore, h2]
        rw [this]
    have huser : userTotal (r :: rs) uid =
        (if uid = r.userId then r.totalScore else 0) + userTotal rs uid := by
      by_cases huk : uid = r.userId
      · subst huk
        simp [userTotal, List.filter_cons]
      · have h2 : ¬ r.userId = uid := fun hh => huk hh.symm
        simp [userTotal, List.filter_cons, h2, huk]
    rw [hstep_sum, huser]
    ring

/-- `getMonthlyLeaderboard`'s grouping fold keys each user once and
accumulates exactly the sum of that user's attempt scores. -/
theorem groupScores_sums (rows : List AttemptRow) :
    ((groupScores rows).map Prod.fst).Nodup ∧
    ∀ uid, lookupScore (groupScores rows) uid = userTotal rows uid := by
  obtain ⟨h1, h2⟩ := foldl_groupStep_lookup rows [] (by simp)
  refine ⟨h1, fun uid => ?_⟩
  have := h2 uid
  simpa [lookupScore] using this

end AidevBackend

namespace AidevBackend

/-- Attempt of user 1 scoring 300, submitted earliest. -/
def rowA : AttemptRow := { userId := 1, totalScore := 300, completedAt := 10 }

/-- Attempt of user 2 scoring 300, submitted after `rowA`. -/
def rowB : AttemptRow := { userId := 2, totalScore := 300, completedAt := 20 }

/-- Attempt of user 3 scoring 100. -/
def rowC : AttemptRow := { userId := 3, totalScore := 100, completedAt := 30 }

/-- C7 counterexample: neither leaderboard has a deterministic
tie-break — the rank assignment for the same set of three attempts
(scores [300, 300, 100]) depends on the order in which storage returns
the rows, and in the swapped order the tied user who submitted LATER is
ranked first, contradicting any defined deterministic tie-break such as
"earliest submission first". -/
theorem C7_counterexample :
    List.Perm [rowA, rowB, rowC] [rowB, rowA, rowC] ∧
    quizLeaderboard [rowA, rowB, rowC] = [(1, 300, 1), (2, 300, 2), (3, 100, 3)] ∧
    quizLeaderboard [rowB, rowA, rowC] = [(2, 300, 1), (1, 300, 2), (3, 100, 3)] ∧
    quizLeaderboard [rowA, rowB, rowC] ≠ quizLeaderboard [rowB, rowA, rowC] ∧
    monthlyLeaderboard [rowA, rowB, rowC] ≠ monthlyLeaderboard [rowB, rowA, rowC] ∧
    rowA.completedAt < rowB.completedAt := by
  refine ⟨List.Perm.swap rowB rowA [rowC], ?_, ?_, ?_, ?_, ?_⟩
  · decide
  · decide
  · decide
  · decide
  · norm_num [rowA, rowB]

/-- C7 (amended): both leaderboards assign dense positional 1-based
ranks (entry at sorted position i gets rank i+1 — for [300, 300, 100]
the ranks are [1, 2, 3], never [1, 1, 3]), sort descending by score,
cap at 50 entries, and the monthly board sums each user's attempt
scores; but ties carry no deterministic tie-break — equal scores keep
whatever order the storage returned. -/
theorem C7_leaderboard_ranks :
    (∀ rows : List AttemptRow, (quizLeaderboard rows).length ≤ 50) ∧
    (∀ rows : List AttemptRow, (monthlyLeaderboard rows).length ≤ 50) ∧
    (∀ (rows : List AttemptRow) (i : ℕ) (h : i < (quizLeaderboard rows).length),
      ((quizLeaderboard rows).get ⟨i, h⟩).2.2 = i + 1) ∧
    (∀ (rows : List AttemptRow) (i : ℕ) (h : i < (monthlyLeaderboard rows).length),
      ((monthlyLeaderboard rows).get ⟨i, h⟩).2.2 = i + 1) ∧
    (∀ rows : List AttemptRow,
      (quizLeaderboard rows).Pairwise (fun a b => b.2.1 ≤ a.2.1)) ∧
    (∀ rows : List AttemptRow,
      (monthlyLeaderboard rows).Pairwise (fun a b => b.2.1 ≤ a.2.1)) ∧
    (∀ (rows : List AttemptRow) (uid : ℕ),
      lookupScore (groupScores rows) uid = userTotal rows uid) ∧
    quizLeaderboard [rowA, rowB, rowC] = [(1, 300, 1), (2, 300, 2), (3, 100, 3)] := by
  refine ⟨?_, ?_, ?_, ?_, ?_, ?_, ?_, by decide⟩
  · intro rows
    rw [quizLeaderboard, assignRanks_length, List.length_take]
    exact min_le_left _ _
  · intro rows
    rw [monthlyLeaderboard, assignRanks_length, List.length_take]
    exact min_le_left _ _
  · intro rows i h
    simpa using assignRanks_get _ 0 i h
  · intro rows i h
    simpa using assignRanks_get _ 0 i h
  · intro rows
    exact assignRanks_pairwise _ 0
      (List.Pairwise.sublist (List.take_sublist _ _) (sortByScoreDesc_pairwise _))
  · intro rows
    exact assignRanks_pairwise _ 0
      (List.Pairwise.sublist (List.take_sublist _ _) (sortByScoreDesc_pairwise _))
  · intro rows uid
    exact (groupScores_sums rows).2 uid

/-- Witness for the amended C7: the top entry of the concrete
leaderboard carries rank 1. -/
theorem C7_leaderboard_ranks_witness :
    ((quizLeaderboard [rowA, rowB, rowC]).get ⟨0, by decide⟩).2.2 = 0 + 1 :=
  C7_leaderboard_ranks.2.2.1 [rowA, rowB, rowC] 0 (by decide)

end AidevBackend
